import Mathlib

/-!
Verification development for the DOCX generator in `main.go`
(`GenerateDocxFromEntries` and its helpers).

The Go program is embedded shallowly:

* `DocumentEntry` mirrors the Go struct of the same name (the Go field
  `Type` is rendered as `type_`, since `Type` is a Lean keyword).
* raw image bytes are modelled as `List Nat`; `ioutil.ReadFile` is an
  oracle parameter `readFile : String → Except String (List Nat)`.
* `xmlEscape` mirrors the Go `encoding/xml.EscapeText` rune loop.
* the ZIP archive is modelled as the ordered list of entries created on
  the `zip.Writer` (`addDir` / `addFile` / media writes, in call order).
* the document body is modelled both as the structured block list the
  body loop appends (`genBlocks`) and as the rendered XML strings
  (`renderImagePara`, `renderTextPara`, `renderDocumentXML`), which
  reproduce the Go template literals.
* `scaleFactor` / `newHeightEmu`: Go computes these in `float64`; they
  are modelled in exact rational arithmetic.  The lemma
  `floor_robust_near_exact` shows that any value within `1/1000` of the
  exact product truncates to the same integer, so the `float64`
  rounding error (relative error around `2⁻⁵²` per operation, absolute
  error far below `1/1000` at this magnitude) cannot change the result.
-/

namespace TestDocx

/-- Mirror of the Go struct `DocumentEntry`: `Type` ("figure" or "text"),
`SvgPath`, `Legend` (for figures) and `Text` (for text entries). -/
structure DocumentEntry where
  type_ : String
  svgPath : String
  legend : String
  text : String
deriving DecidableEq, Repr

/-- Convenience constructor for a figure entry (Go literal
`DocumentEntry{Type: "figure", SvgPath: ..., Legend: ...}`). -/
def figureEntry (svgPath legend : String) : DocumentEntry :=
  ⟨"figure", svgPath, legend, ""⟩

/-- Convenience constructor for a text entry (Go literal
`DocumentEntry{Type: "text", Text: ...}`). -/
def textEntry (text : String) : DocumentEntry :=
  ⟨"text", "", "", text⟩

/-- Tab character, `0x09`. -/
def tabChar : Char := Char.ofNat 9

/-- Line-feed character, `0x0A`. -/
def nlChar : Char := Char.ofNat 10

/-- Carriage-return character, `0x0D`. -/
def crChar : Char := Char.ofNat 13

/-- Double-quote character, `0x22`. -/
def quotChar : Char := Char.ofNat 34

/-- Apostrophe character, `0x27`. -/
def aposChar : Char := Char.ofNat 39

/-- Unicode replacement character `U+FFFD`, the Go `escFFFD`. -/
def fffdChar : Char := Char.ofNat 0xFFFD

/-- Mirror of Go `encoding/xml.isInCharacterRange`: the XML 1.0
character range (tab, LF, CR, `0x20`–`0xD7FF`, `0xE000`–`0xFFFD`,
`0x10000`–`0x10FFFF`). -/
def isInCharacterRange (c : Char) : Bool :=
  c.toNat == 0x09 || c.toNat == 0x0A || c.toNat == 0x0D ||
    (decide (0x20 ≤ c.toNat) && decide (c.toNat ≤ 0xD7FF)) ||
    (decide (0xE000 ≤ c.toNat) && decide (c.toNat ≤ 0xFFFD)) ||
    (decide (0x10000 ≤ c.toNat) && decide (c.toNat ≤ 0x10FFFF))

/-- Per-rune behaviour of Go `encoding/xml.EscapeText` (used by the Go
helper `xmlEscape`): the five markup characters and tab/LF/CR are
replaced by character references (`escQuot`, `escApos`, `escAmp`,
`escLT`, `escGT`, `escTab`, `escNL`, `escCR`); runes outside the XML
character range are replaced by `U+FFFD`; every other rune is copied
verbatim.  (The Go clause `r == 0xFFFD && width == 1` flags invalid
UTF-8 bytes; a Lean `Char` is always a valid scalar value, so that
clause cannot fire here.) -/
def escapeChar (c : Char) : List Char :=
  if c = quotChar then ['&', '#', '3', '4', ';']
  else if c = aposChar then ['&', '#', '3', '9', ';']
  else if c = '&' then ['&', 'a', 'm', 'p', ';']
  else if c = '<' then ['&', 'l', 't', ';']
  else if c = '>' then ['&', 'g', 't', ';']
  else if c = tabChar then ['&', '#', 'x', '9', ';']
  else if c = nlChar then ['&', '#', 'x', 'A', ';']
  else if c = crChar then ['&', '#', 'x', 'D', ';']
  else if isInCharacterRange c then [c]
  else [fffdChar]

/-- Mirror of the Go helper `xmlEscape` (a wrapper around
`xml.EscapeText`). -/
def xmlEscape (s : String) : String :=
  String.mk (s.data.flatMap escapeChar)

/-- Decoder for the character references produced by `escapeChar` (the
inverse direction of the escaping round-trip property): a `&` followed
by one of the eight references decodes to the referenced character, any
other character is copied verbatim. -/
def xmlUnescapeAux : List Char → List Char
  | [] => []
  | c :: r =>
    if c = '&' ∧ r.take 4 = ['a', 'm', 'p', ';'] then '&' :: xmlUnescapeAux (r.drop 4)
    else if c = '&' ∧ r.take 3 = ['l', 't', ';'] then '<' :: xmlUnescapeAux (r.drop 3)
    else if c = '&' ∧ r.take 3 = ['g', 't', ';'] then '>' :: xmlUnescapeAux (r.drop 3)
    else if c = '&' ∧ r.take 4 = ['#', '3', '4', ';'] then quotChar :: xmlUnescapeAux (r.drop 4)
    else if c = '&' ∧ r.take 4 = ['#', '3', '9', ';'] then aposChar :: xmlUnescapeAux (r.drop 4)
    else if c = '&' ∧ r.take 4 = ['#', 'x', '9', ';'] then tabChar :: xmlUnescapeAux (r.drop 4)
    else if c = '&' ∧ r.take 4 = ['#', 'x', 'A', ';'] then nlChar :: xmlUnescapeAux (r.drop 4)
    else if c = '&' ∧ r.take 4 = ['#', 'x', 'D', ';'] then crChar :: xmlUnescapeAux (r.drop 4)
    else c :: xmlUnescapeAux r
termination_by l => l.length
decreasing_by
  all_goals simp [List.length_drop, List.length_cons]
  all_goals omega

/-- XML-unescaping on strings. -/
def xmlUnescape (s : String) : String :=
  String.mk (xmlUnescapeAux s.data)

/-- Well-formedness of escaped character data: no raw `<`, `>` or `"`,
every character inside the XML character range, and every `&` starting
one of the character references emitted by `escapeChar`.  Text
satisfying this predicate can be placed between `<w:t>` and `</w:t>`
without breaking XML well-formedness. -/
def xmlTextOk : List Char → Bool
  | [] => true
  | c :: r =>
    if c = '&' ∧ r.take 4 = ['a', 'm', 'p', ';'] then xmlTextOk (r.drop 4)
    else if c = '&' ∧ r.take 3 = ['l', 't', ';'] then xmlTextOk (r.drop 3)
    else if c = '&' ∧ r.take 3 = ['g', 't', ';'] then xmlTextOk (r.drop 3)
    else if c = '&' ∧ r.take 4 = ['#', '3', '4', ';'] then xmlTextOk (r.drop 4)
    else if c = '&' ∧ r.take 4 = ['#', '3', '9', ';'] then xmlTextOk (r.drop 4)
    else if c = '&' ∧ r.take 4 = ['#', 'x', '9', ';'] then xmlTextOk (r.drop 4)
    else if c = '&' ∧ r.take 4 = ['#', 'x', 'A', ';'] then xmlTextOk (r.drop 4)
    else if c = '&' ∧ r.take 4 = ['#', 'x', 'D', ';'] then xmlTextOk (r.drop 4)
    else if c = '&' then false
    else
      decide (c ≠ '<') && decide (c ≠ '>') && decide (c ≠ quotChar) &&
        isInCharacterRange c && xmlTextOk r
termination_by l => l.length
decreasing_by
  all_goals simp [List.length_drop, List.length_cons]
  all_goals omega

/-- Go: `fullWidthEmu := 5737100 // ≈ 9026/20 * 12700`.  The constant
is hard-coded in the source; the comment only claims approximation. -/
def fullWidthEmu : Nat := 5737100

/-- Go: `scaleFactor := float64(fullWidthEmu) / 3000000.0`, modelled in
exact rational arithmetic (see the module docstring and
`floor_robust_near_exact` for why `float64` rounding is immaterial
here). -/
def scaleFactor : ℚ := (fullWidthEmu : ℚ) / 3000000

/-- Go: `newHeightEmu := int(2000000 * scaleFactor)`.  The Go
float-to-int conversion truncates toward zero; the value is positive,
so this is the floor. -/
def newHeightEmu : Nat := (⌊(2000000 : ℚ) * scaleFactor⌋).toNat

/-- One block of the document body, as appended by the body loop:
either the inline-image paragraph of the `figureIndex`-th figure (with
its `wp:extent`/`a:ext` width and height in EMU) or a plain text
paragraph whose content is already XML-escaped (the loop writes
`xmlEscape(entry.Legend)` resp. `xmlEscape(entry.Text)`). -/
inductive Block where
  | image (figureIndex width height : Nat)
  | para (content : String)
deriving DecidableEq, Repr

/-- The body loop of `GenerateDocxFromEntries` (lines 277–340): iterate
over the entries in order with a running `figureIndex`; a `"figure"`
entry increments the index and appends the image paragraph followed by
the legend paragraph; a `"text"` entry appends one text paragraph; any
other `Type` appends nothing. -/
def genBlocks : List DocumentEntry → Nat → List Block
  | [], _ => []
  | e :: rest, figureIndex =>
    if e.type_ = "figure" then
      Block.image (figureIndex + 1) fullWidthEmu newHeightEmu
        :: Block.para (xmlEscape e.legend)
        :: genBlocks rest (figureIndex + 1)
    else if e.type_ = "text" then
      Block.para (xmlEscape e.text) :: genBlocks rest figureIndex
    else
      genBlocks rest figureIndex

/-- The figure-counting condition used by every loop in the Go code. -/
def isFigure (e : DocumentEntry) : Bool :=
  e.type_ = "figure"

/-- The number of `"figure"` entries (the Go `figureCount`). -/
def countFigures : List DocumentEntry → Nat
  | [] => 0
  | e :: rest => (if e.type_ = "figure" then 1 else 0) + countFigures rest

/-- The `"figure"` entries of the input, in order. -/
def figuresOf (entries : List DocumentEntry) : List DocumentEntry :=
  entries.filter isFigure

/-- One `<Relationship>` record of `word/_rels/document.xml.rels`
(attributes `Id`, `Type`, `Target`). -/
structure RelEntry where
  id : String
  relType : String
  target : String
deriving DecidableEq, Repr

/-- The image relationship type URI used by the Go source. -/
def imageRelType : String :=
  "http://schemas.openxmlformats.org/officeDocument/2006/relationships/image"

/-- The relationship records written by the `docRels` loop
(lines 362–367): `rId{i}` targeting `media/image{i}.svg` for
`i = 1 .. figureCount`. -/
def docRelsEntries (figureCount : Nat) : List RelEntry :=
  (List.range' 1 figureCount).map (fun i =>
    ⟨"rId" ++ toString i, imageRelType,
      "media/image" ++ toString i ++ ".svg"⟩)

/-- The part names of the image content-type overrides written by the
`contentTypes` loop (lines 378–381): `/word/media/image{i}.svg` for
`i = 1 .. figureCount`, each with content type `image/svg+xml`. -/
def contentTypeOverrides (figureCount : Nat) : List String :=
  (List.range' 1 figureCount).map (fun i =>
    "/word/media/image" ++ toString i ++ ".svg")

/-- Content of one ZIP part: an XML part (kept as a string, as built by
the Go string templates) or a binary media part (raw bytes). -/
inductive PartContent where
  | xml (s : String)
  | bin (b : List Nat)
deriving DecidableEq, Repr

/-- One entry written to the `zip.Writer`: a directory entry (`addDir`)
or a file entry (`addFile` / the media `Create`+`Write`). -/
inductive ZipEntry where
  | dir (name : String)
  | file (name : String) (content : PartContent)
deriving DecidableEq, Repr

/-- The path of a ZIP entry. -/
def ZipEntry.name : ZipEntry → String
  | .dir n => n
  | .file n _ => n

/-- The media-writing loop (lines 431–444): iterate over the entries
again with a fresh `figureIndex`; each `"figure"` entry writes
`word/media/image{figureIndex}.svg` with content
`figureData[figureIndex-1]`.  (The Go index expression is always in
range because both loops filter on the same condition; `getD` models
the successful access.) -/
def mediaLoop (figureData : List (List Nat)) :
    List DocumentEntry → Nat → List ZipEntry
  | [], _ => []
  | e :: rest, figureIndex =>
    if e.type_ = "figure" then
      ZipEntry.file ("word/media/image" ++ toString (figureIndex + 1) ++ ".svg")
          (PartContent.bin (figureData.getD figureIndex []))
        :: mediaLoop figureData rest (figureIndex + 1)
    else
      mediaLoop figureData rest figureIndex

/-- The first loop of `GenerateDocxFromEntries` (lines 249–260): count
the figures and read the SVG bytes of each figure through the `readFile`
oracle; the first read failure aborts with
`error reading SVG file "path": err` (Go `fmt.Errorf` with `%q`,
modelled as surrounding double quotes). -/
def readFigures (readFile : String → Except String (List Nat)) :
    List DocumentEntry → Except String (Nat × List (List Nat))
  | [] => Except.ok (0, [])
  | e :: rest =>
    if e.type_ = "figure" then
      match readFile e.svgPath with
      | Except.error err =>
        Except.error ("error reading SVG file \"" ++ e.svgPath ++ "\": " ++ err)
      | Except.ok data =>
        match readFigures readFile rest with
        | Except.error msg => Except.error msg
        | Except.ok (n, ds) => Except.ok (n + 1, data :: ds)
    else
      readFigures readFile rest

/-- Rendering of the inline-image paragraph of a figure: the Go template of
lines 284–323, with the `%d` arguments `fullWidthEmu, newHeightEmu,
figureIndex, figureIndex, figureIndex, figureIndex, fullWidthEmu,
newHeightEmu` substituted. -/
def renderImagePara (figureIndex width height : Nat) : String :=
  "\n    <w:p>\n      <w:r>\n        <w:drawing>\n          <wp:inline distT=\"0\" distB=\"0\" distL=\"0\" distR=\"0\">\n            <wp:extent cx=\""
    ++ toString width ++ "\" cy=\"" ++ toString height
    ++ "\"/>\n            <wp:effectExtent l=\"0\" t=\"0\" r=\"0\" b=\"0\"/>\n            <wp:docPr id=\""
    ++ toString figureIndex ++ "\" name=\"Picture " ++ toString figureIndex
    ++ "\"/>\n            <wp:cNvGraphicFramePr>\n              <a:graphicFrameLocks noChangeAspect=\"1\"/>\n            </wp:cNvGraphicFramePr>\n            <a:graphic>\n              <a:graphicData uri=\"http://schemas.openxmlformats.org/drawingml/2006/picture\">\n                <pic:pic>\n                  <pic:nvPicPr>\n                    <pic:cNvPr id=\"0\" name=\"Picture "
    ++ toString figureIndex
    ++ "\"/>\n                    <pic:cNvPicPr/>\n                  </pic:nvPicPr>\n                  <pic:blipFill>\n                    <a:blip r:embed=\"rId"
    ++ toString figureIndex
    ++ "\"/>\n                    <a:stretch>\n                      <a:fillRect/>\n                    </a:stretch>\n                  </pic:blipFill>\n                  <pic:spPr>\n                    <a:xfrm>\n                      <a:off x=\"0\" y=\"0\"/>\n                      <a:ext cx=\""
    ++ toString width ++ "\" cy=\"" ++ toString height
    ++ "\"/>\n                    </a:xfrm>\n                    <a:prstGeom prst=\"rect\">\n                      <a:avLst/>\n                    </a:prstGeom>\n                  </pic:spPr>\n                </pic:pic>\n              </a:graphicData>\n            </a:graphic>\n          </wp:inline>\n        </w:drawing>\n      </w:r>\n    </w:p>"

/-- Rendering of a text paragraph (the Go template of lines 325–330 and
333–338; `content` is the already-escaped string). -/
def renderTextPara (content : String) : String :=
  "\n    <w:p>\n      <w:r>\n        <w:t>" ++ content
    ++ "</w:t>\n      </w:r>\n    </w:p>"

/-- Rendering of one body block. -/
def renderBlock : Block → String
  | .image i w h => renderImagePara i w h
  | .para c => renderTextPara c

/-- The fixed prefix of `word/document.xml` (lines 343–349), up to and
including `<w:body>`. -/
def documentHeader : String :=
  "<?xml version=\"1.0\" encoding=\"UTF-8\" standalone=\"yes\"?>\n<w:document xmlns:w=\"http://schemas.openxmlformats.org/wordprocessingml/2006/main\"\n            xmlns:r=\"http://schemas.openxmlformats.org/officeDocument/2006/relationships\"\n            xmlns:wp=\"http://schemas.openxmlformats.org/drawingml/2006/wordprocessingDrawing\"\n            xmlns:a=\"http://schemas.openxmlformats.org/drawingml/2006/main\"\n            xmlns:pic=\"http://schemas.openxmlformats.org/drawingml/2006/picture\">\n  <w:body>"

/-- The fixed suffix of `word/document.xml` (lines 350–355): the
section properties and closing tags. -/
def documentFooter : String :=
  "\n    <w:sectPr>\n      <w:pgSz w:w=\"11906\" w:h=\"16838\"/>\n      <w:pgMar w:top=\"1440\" w:right=\"1440\" w:bottom=\"1440\" w:left=\"1440\"/>\n    </w:sectPr>\n  </w:body>\n</w:document>"

/-- The complete `word/document.xml` for a given body block list. -/
def renderDocumentXML (blocks : List Block) : String :=
  documentHeader ++ String.join (blocks.map renderBlock) ++ documentFooter

/-- Rendering of one `<Relationship>` record (Go template of
lines 363–366, including its trailing spaces). -/
def renderRelEntry (r : RelEntry) : String :=
  "\n    <Relationship Id=\"" ++ r.id ++ "\" \n        Type=\""
    ++ r.relType ++ "\" \n        Target=\"" ++ r.target ++ "\"/>"

/-- The complete `word/_rels/document.xml.rels` (lines 359–368). -/
def renderDocRels (figureCount : Nat) : String :=
  "<?xml version=\"1.0\" encoding=\"UTF-8\"?>\n<Relationships xmlns=\"http://schemas.openxmlformats.org/package/2006/relationships\">"
    ++ String.join ((docRelsEntries figureCount).map renderRelEntry)
    ++ "\n</Relationships>"

/-- The complete `[Content_Types].xml` (lines 372–382). -/
def renderContentTypes (figureCount : Nat) : String :=
  "<?xml version=\"1.0\" encoding=\"UTF-8\"?>\n<Types xmlns=\"http://schemas.openxmlformats.org/package/2006/content-types\">\n    <Default Extension=\"xml\" ContentType=\"application/xml\"/>\n    <Default Extension=\"rels\" ContentType=\"application/vnd.openxmlformats-package.relationships+xml\"/>\n    <Override PartName=\"/word/document.xml\" ContentType=\"application/vnd.openxmlformats-officedocument.wordprocessingml.document.main+xml\"/>"
    ++ String.join ((contentTypeOverrides figureCount).map (fun p =>
        "\n    <Override PartName=\"" ++ p ++ "\" ContentType=\"image/svg+xml\"/>"))
    ++ "\n</Types>"

/-- The fixed `_rels/.rels` part (lines 385–390). -/
def relsRoot : String :=
  "<?xml version=\"1.0\" encoding=\"UTF-8\"?>\n<Relationships xmlns=\"http://schemas.openxmlformats.org/package/2006/relationships\">\n    <Relationship Id=\"rId1\" \n        Type=\"http://schemas.openxmlformats.org/officeDocument/2006/relationships/officeDocument\" \n        Target=\"word/document.xml\"/>\n</Relationships>"

/-- The ZIP entries written on the success path of
`GenerateDocxFromEntries`, in the call order of lines 402–444: the four
`addDir` calls, the four `addFile` calls, then the media loop. -/
def buildPackage (bodyBlocks : List Block) (figureCount : Nat)
    (media : List ZipEntry) : List ZipEntry :=
  [ZipEntry.dir ("_rels/"),
   ZipEntry.dir ("word/"),
   ZipEntry.dir ("word/_rels/"),
   ZipEntry.dir ("word/media/"),
   ZipEntry.file ("[Content_Types].xml")
     (PartContent.xml (renderContentTypes figureCount)),
   ZipEntry.file ("_rels/.rels") (PartContent.xml relsRoot),
   ZipEntry.file ("word/document.xml")
     (PartContent.xml (renderDocumentXML bodyBlocks)),
   ZipEntry.file ("word/_rels/document.xml.rels")
     (PartContent.xml (renderDocRels figureCount))]
    ++ media

/-- Shallow embedding of `GenerateDocxFromEntries` (lines 247–447).
`readFile` is the `ioutil.ReadFile` oracle; the result is the ordered
list of ZIP entries written to the output, or the error of the first
failing step.  The output file is created (`os.Create`, line 393) only
after the figure-reading loop, so a read failure yields an error with
no output written; ZIP writes themselves cannot fail in this pure
model. -/
def generateDocxFromEntries (readFile : String → Except String (List Nat))
    (entries : List DocumentEntry) : Except String (List ZipEntry) :=
  match readFigures readFile entries with
  | Except.error msg => Except.error msg
  | Except.ok (figureCount, figureData) =>
    Except.ok (buildPackage (genBlocks entries 0) figureCount
      (mediaLoop figureData entries 0))

/-- Specification-side description of what a single entry emits, given
the 1-based ordinal it would carry if it is the Nth figure: a figure
emits its inline-image paragraph followed by its escaped caption
paragraph, a text entry emits one escaped text paragraph, anything else
emits nothing.  Used (via `bodySpecBlocks`) to compare the loop of the
implementation with the per-item emission contract of the spec. -/
def entryBlocks (e : DocumentEntry) (figureOrdinal : Nat) : List Block :=
  if e.type_ = "figure" then
    [Block.image figureOrdinal fullWidthEmu newHeightEmu,
     Block.para (xmlEscape e.legend)]
  else if e.type_ = "text" then
    [Block.para (xmlEscape e.text)]
  else
    []

/-- The figure ordinals cited by the image blocks of a body, in order;
ordinal `i` appears in the rendered XML as the relationship token
`rId{i}` (`a:blip r:embed`) and in `wp:docPr`. -/
def imageOrdinals (blocks : List Block) : List Nat :=
  blocks.filterMap (fun b =>
    match b with
    | Block.image i _ _ => some i
    | Block.para _ => none)

/-- The binary (media) parts of a ZIP entry list, as (name, bytes)
pairs; XML parts and directory entries are not binary. -/
def binPart : ZipEntry → Option (String × List Nat)
  | ZipEntry.file n (PartContent.bin b) => some (n, b)
  | ZipEntry.file _ (PartContent.xml _) => none
  | ZipEntry.dir _ => none

lemma newHeightEmu_eq : newHeightEmu = 3824733 := by
  have h : (2000000 : ℚ) * scaleFactor = 11474200 / 3 := by
    rw [scaleFactor, fullWidthEmu]
    norm_num
  have h2 : (⌊(11474200 : ℚ) / 3⌋ : ℤ) = 3824733 := by
    norm_num [Int.floor_eq_iff]
  rw [newHeightEmu, h, h2]
  rfl

/-- Robustness of the height truncation against `float64` rounding: any
rational within `1/1000` of the exact product `2000000 * scaleFactor`
has the same floor, so the (far smaller) `float64` rounding error of
the Go computation cannot change `newHeightEmu`. -/
lemma floor_robust_near_exact (q : ℚ)
    (h : |q - 2000000 * scaleFactor| ≤ 1 / 1000) : ⌊q⌋ = 3824733 := by
  have hx : (2000000 : ℚ) * scaleFactor = 11474200 / 3 := by
    rw [scaleFactor, fullWidthEmu]
    norm_num
  rw [hx] at h
  rw [abs_le] at h
  rw [Int.floor_eq_iff]
  constructor
  · push_cast
    linarith [h.1]
  · push_cast
    linarith [h.2]

lemma image_mem_genBlocks {entries : List DocumentEntry} {k i w h : Nat}
    (hmem : Block.image i w h ∈ genBlocks entries k) :
    w = fullWidthEmu ∧ h = newHeightEmu := by
  induction entries generalizing k with
  | nil => simp [genBlocks] at hmem
  | cons e rest ih =>
    simp only [genBlocks] at hmem
    split_ifs at hmem
    · simp only [List.mem_cons] at hmem
      rcases hmem with h1 | h1 | h1
      · simp only [Block.image.injEq] at h1
        exact ⟨h1.2.1, h1.2.2⟩
      · exact absurd h1 (by simp)
      · exact ih h1
    · simp only [List.mem_cons] at hmem
      rcases hmem with h1 | h1
      · exact absurd h1 (by simp)
      · exact ih h1
    · exact ih hmem

lemma para_mem_genBlocks {entries : List DocumentEntry} {k : Nat} {t : String}
    (hmem : Block.para t ∈ genBlocks entries k) :
    ∃ e ∈ entries, t = xmlEscape e.legend ∨ t = xmlEscape e.text := by
  induction entries generalizing k with
  | nil => simp [genBlocks] at hmem
  | cons e rest ih =>
    simp only [genBlocks] at hmem
    split_ifs at hmem
    · simp only [List.mem_cons] at hmem
      rcases hmem with h1 | h1 | h1
      · exact absurd h1 (by simp)
      · simp only [Block.para.injEq] at h1
        exact ⟨e, List.mem_cons_self e rest, Or.inl h1⟩
      · obtain ⟨e', he', ht⟩ := ih h1
        exact ⟨e', List.mem_cons_of_mem e he', ht⟩
    · simp only [List.mem_cons] at hmem
      rcases hmem with h1 | h1
      · simp only [Block.para.injEq] at h1
        exact ⟨e, List.mem_cons_self e rest, Or.inr h1⟩
      · obtain ⟨e', he', ht⟩ := ih h1
        exact ⟨e', List.mem_cons_of_mem e he', ht⟩
    · obtain ⟨e', he', ht⟩ := ih hmem
      exact ⟨e', List.mem_cons_of_mem e he', ht⟩

lemma imageOrdinals_genBlocks :
    ∀ (entries : List DocumentEntry) (k : Nat),
      imageOrdinals (genBlocks entries k) =
        List.range' (k + 1) (countFigures entries) := by
  intro entries
  induction entries with
  | nil => intro k; simp [genBlocks, countFigures, imageOrdinals]
  | cons e rest ih =>
    intro k
    simp only [genBlocks, countFigures]
    split_ifs with h1 h2
    · rw [Nat.add_comm 1 (countFigures rest), List.range'_succ]
      simp only [imageOrdinals, List.filterMap_cons]
      rw [← imageOrdinals, ih (k + 1)]
    · simp only [Nat.zero_add, imageOrdinals, List.filterMap_cons]
      rw [← imageOrdinals, ih k]
    · simp only [Nat.zero_add]
      exact ih k

lemma range'_map_shift {β : Type} (g : Nat → β) :
    ∀ (n s : Nat),
      (List.range' s n).map (fun i => g (i + 1)) = (List.range' (s + 1) n).map g := by
  intro n
  induction n with
  | zero => intro s; simp
  | succ m ih =>
    intro s
    rw [List.range'_succ, List.range'_succ]
    simp only [List.map_cons]
    rw [ih (s + 1)]

lemma mediaLoop_eq (data : List (List Nat)) :
    ∀ (entries : List DocumentEntry) (k : Nat),
      mediaLoop data entries k =
        (List.range' k (countFigures entries)).map (fun i =>
          ZipEntry.file ("word/media/image" ++ toString (i + 1) ++ ".svg")
            (PartContent.bin (data.getD i []))) := by
  intro entries
  induction entries with
  | nil => intro k; simp [mediaLoop, countFigures]
  | cons e rest ih =>
    intro k
    simp only [mediaLoop, countFigures]
    split_ifs with h1
    · rw [Nat.add_comm 1 (countFigures rest), List.range'_succ]
      simp only [List.map_cons]
      rw [ih (k + 1)]
    · simp only [Nat.zero_add]
      exact ih k

lemma countFigures_eq_length_figuresOf (entries : List DocumentEntry) :
    countFigures entries = (figuresOf entries).length := by
  induction entries with
  | nil => simp [countFigures, figuresOf]
  | cons e rest ih =>
    simp only [countFigures, figuresOf, List.filter_cons]
    by_cases h1 : e.type_ = "figure"
    · simp [isFigure, h1, ih, figuresOf, Nat.add_comm]
    · simp [isFigure, h1, ih, figuresOf]

lemma readFigures_ok {rf : String → Except String (List Nat)}
    {entries : List DocumentEntry} {n : Nat} {data : List (List Nat)}
    (h : readFigures rf entries = Except.ok (n, data)) :
    n = countFigures entries ∧
      data = (figuresOf entries).map (fun e => (rf e.svgPath).toOption.getD []) := by
  induction entries generalizing n data with
  | nil =>
    simp only [readFigures, Except.ok.injEq, Prod.mk.injEq] at h
    simp [countFigures, figuresOf, ← h.1, ← h.2]
  | cons e rest ih =>
    simp only [readFigures] at h
    split_ifs at h with h1
    · cases hrf : rf e.svgPath with
      | error err => rw [hrf] at h; simp at h
      | ok d =>
        rw [hrf] at h
        cases hrec : readFigures rf rest with
        | error msg => rw [hrec] at h; simp at h
        | ok p =>
          obtain ⟨m, ds⟩ := p
          rw [hrec] at h
          simp only [Except.ok.injEq, Prod.mk.injEq] at h
          obtain ⟨ihn, ihd⟩ := ih hrec
          constructor
          · rw [← h.1, countFigures, if_pos h1, ihn, Nat.add_comm]
          · rw [← h.2, figuresOf, List.filter_cons, if_pos (by simp [isFigure, h1])]
            simp only [List.map_cons]
            rw [← figuresOf, ← ihd, hrf]
            rfl
    · obtain ⟨ihn, ihd⟩ := ih h
      constructor
      · rw [countFigures, if_neg h1, ihn, Nat.zero_add]
      · rw [figuresOf, List.filter_cons, if_neg (by simp [isFigure, h1])]
        rw [← figuresOf]
        exact ihd

lemma countFigures_append (l r : List DocumentEntry) :
    countFigures (l ++ r) = countFigures l + countFigures r := by
  induction l with
  | nil => simp [countFigures]
  | cons e l' ih =>
    simp only [List.cons_append, List.append_eq, countFigures, ih]
    omega

lemma genBlocks_append :
    ∀ (l r : List DocumentEntry) (k : Nat),
      genBlocks (l ++ r) k = genBlocks l k ++ genBlocks r (k + countFigures l) := by
  intro l
  induction l with
  | nil => intro r k; simp [genBlocks, countFigures]
  | cons e l' ih =>
    intro r k
    simp only [List.cons_append, List.append_eq, genBlocks, countFigures]
    split_ifs with h1 h2
    · rw [ih r (k + 1),
        (by omega : k + (1 + countFigures l') = k + 1 + countFigures l')]
      simp only [List.cons_append]
    · rw [ih r k, (by omega : k + (0 + countFigures l') = k + countFigures l')]
      simp only [List.cons_append]
    · rw [ih r k, (by omega : k + (0 + countFigures l') = k + countFigures l')]

lemma genBlocks_singleton (e : DocumentEntry) (k : Nat) :
    genBlocks [e] k = entryBlocks e (k + 1) := by
  simp [genBlocks, entryBlocks]

lemma readFigures_no_figures {rf : String → Except String (List Nat)}
    {entries : List DocumentEntry}
    (h : ∀ e ∈ entries, ¬e.type_ = "figure") :
    readFigures rf entries = Except.ok (0, []) := by
  induction entries with
  | nil => rfl
  | cons e rest ih =>
    rw [readFigures, if_neg (h e (List.mem_cons_self e rest))]
    exact ih (fun e' he' => h e' (List.mem_cons_of_mem e he'))

lemma readFigures_error_of_exists {rf : String → Except String (List Nat)}
    {entries : List DocumentEntry}
    (h : ∃ e ∈ entries, e.type_ = "figure" ∧ ∃ msg, rf e.svgPath = Except.error msg) :
    ∃ e msg, e ∈ entries ∧ e.type_ = "figure" ∧ rf e.svgPath = Except.error msg ∧
      readFigures rf entries =
        Except.error ("error reading SVG file \"" ++ e.svgPath ++ "\": " ++ msg) := by
  induction entries with
  | nil => simp at h
  | cons e rest ih =>
    by_cases h1 : e.type_ = "figure"
    · cases hrf : rf e.svgPath with
      | error msg =>
        refine ⟨e, msg, List.mem_cons_self e rest, h1, hrf, ?_⟩
        rw [readFigures, if_pos h1, hrf]
      | ok d =>
        have h' : ∃ e' ∈ rest, e'.type_ = "figure" ∧ ∃ msg, rf e'.svgPath = Except.error msg := by
          obtain ⟨e', he', hf', msg, hrf'⟩ := h
          rcases List.mem_cons.mp he' with rfl | hmem
          · rw [hrf'] at hrf; cases hrf
          · exact ⟨e', hmem, hf', msg, hrf'⟩
        obtain ⟨e', msg, hm, hf', hrf', hrec⟩ := ih h'
        refine ⟨e', msg, List.mem_cons_of_mem e hm, hf', hrf', ?_⟩
        rw [readFigures, if_pos h1, hrf, hrec]
    · have h' : ∃ e' ∈ rest, e'.type_ = "figure" ∧ ∃ msg, rf e'.svgPath = Except.error msg := by
        obtain ⟨e', he', hf', msg, hrf'⟩ := h
        rcases List.mem_cons.mp he' with rfl | hmem
        · exact absurd hf' h1
        · exact ⟨e', hmem, hf', msg, hrf'⟩
      obtain ⟨e', msg, hm, hf', hrf', hrec⟩ := ih h'
      refine ⟨e', msg, List.mem_cons_of_mem e hm, hf', hrf', ?_⟩
      rw [readFigures, if_neg h1, hrec]

lemma countFigures_skip {e : DocumentEntry}
    (h1 : ¬e.type_ = "figure") :
    ∀ (l r : List DocumentEntry), countFigures (l ++ e :: r) = countFigures (l ++ r) := by
  intro l r
  rw [countFigures_append, countFigures_append, countFigures, if_neg h1, Nat.zero_add]

lemma genBlocks_skip {e : DocumentEntry}
    (h1 : ¬e.type_ = "figure") (h2 : ¬e.type_ = "text") :
    ∀ (l r : List DocumentEntry) (k : Nat),
      genBlocks (l ++ e :: r) k = genBlocks (l ++ r) k := by
  intro l r k
  have hone : ∀ k', genBlocks (e :: r) k' = genBlocks r k' := by
    intro k'
    rw [genBlocks, if_neg h1, if_neg h2]
  rw [genBlocks_append, hone, ← genBlocks_append]

lemma mediaLoop_skip {e : DocumentEntry} (h1 : ¬e.type_ = "figure")
    (data : List (List Nat)) :
    ∀ (l r : List DocumentEntry) (k : Nat),
      mediaLoop data (l ++ e :: r) k = mediaLoop data (l ++ r) k := by
  intro l r k
  rw [mediaLoop_eq, mediaLoop_eq, countFigures_skip h1]

lemma readFigures_skip {rf : String → Except String (List Nat)}
    {e : DocumentEntry} (h1 : ¬e.type_ = "figure") :
    ∀ (l r : List DocumentEntry),
      readFigures rf (l ++ e :: r) = readFigures rf (l ++ r) := by
  intro l
  induction l with
  | nil =>
    intro r
    simp only [List.nil_append]
    rw [readFigures, if_neg h1]
  | cons x xs ih =>
    intro r
    simp only [List.cons_append, List.append_eq, readFigures]
    split_ifs with hx
    · cases hrf : rf x.svgPath with
      | error err => rfl
      | ok d => rw [ih r]
    · exact ih r

lemma xmlUnescapeAux_cons_ne (c : Char) (r : List Char) (h : c ≠ '&') :
    xmlUnescapeAux (c :: r) = c :: xmlUnescapeAux r := by
  rw [xmlUnescapeAux]
  simp [h]

lemma xmlTextOk_cons_ne (c : Char) (r : List Char) (h : c ≠ '&') :
    xmlTextOk (c :: r) =
      (decide (c ≠ '<') && decide (c ≠ '>') && decide (c ≠ quotChar) &&
        isInCharacterRange c && xmlTextOk r) := by
  rw [xmlTextOk]
  simp [h]

lemma xmlTextOk_escape (l : List Char) :
    xmlTextOk (l.flatMap escapeChar) = true := by
  induction l with
  | nil => simp [xmlTextOk]
  | cons c r ih =>
    rw [List.flatMap_cons, escapeChar]
    split_ifs with h1 h2 h3 h4 h5 h6 h7 h8 h9
    · simp only [List.cons_append, List.nil_append]
      rw [xmlTextOk]
      simp [List.take, List.drop, ih]
    · simp only [List.cons_append, List.nil_append]
      rw [xmlTextOk]
      simp [List.take, List.drop, ih]
    · simp only [List.cons_append, List.nil_append]
      rw [xmlTextOk]
      simp [List.take, List.drop, ih]
    · simp only [List.cons_append, List.nil_append]
      rw [xmlTextOk]
      simp [List.take, List.drop, ih]
    · simp only [List.cons_append, List.nil_append]
      rw [xmlTextOk]
      simp [List.take, List.drop, ih]
    · simp only [List.cons_append, List.nil_append]
      rw [xmlTextOk]
      simp [List.take, List.drop, ih]
    · simp only [List.cons_append, List.nil_append]
      rw [xmlTextOk]
      simp [List.take, List.drop, ih]
    · simp only [List.cons_append, List.nil_append]
      rw [xmlTextOk]
      simp [List.take, List.drop, ih]
    · rw [List.singleton_append, xmlTextOk_cons_ne c _ h3]
      simp only [h9, ih, Bool.and_true]
      simp [h1, h4, h5]
    · rw [List.singleton_append,
        xmlTextOk_cons_ne fffdChar _ (by decide)]
      simp only [ih, Bool.and_true]
      simp [fffdChar, quotChar, isInCharacterRange]

lemma unescape_escape (l : List Char)
    (h : ∀ c ∈ l, isInCharacterRange c = true) :
    xmlUnescapeAux (l.flatMap escapeChar) = l := by
  induction l with
  | nil => simp [xmlUnescapeAux]
  | cons c r ih =>
    have hc := h c (List.mem_cons_self c r)
    have hr : ∀ c' ∈ r, isInCharacterRange c' = true :=
      fun c' hc' => h c' (List.mem_cons_of_mem c hc')
    rw [List.flatMap_cons, escapeChar]
    split_ifs with h1 h2 h3 h4 h5 h6 h7 h8
    · simp only [List.cons_append, List.nil_append]
      rw [xmlUnescapeAux]
      simp [List.take, List.drop, ih hr, h1]
    · simp only [List.cons_append, List.nil_append]
      rw [xmlUnescapeAux]
      simp [List.take, List.drop, ih hr, h2]
    · simp only [List.cons_append, List.nil_append]
      rw [xmlUnescapeAux]
      simp [List.take, List.drop, ih hr, h3]
    · simp only [List.cons_append, List.nil_append]
      rw [xmlUnescapeAux]
      simp [List.take, List.drop, ih hr, h4]
    · simp only [List.cons_append, List.nil_append]
      rw [xmlUnescapeAux]
      simp [List.take, List.drop, ih hr, h5]
    · simp only [List.cons_append, List.nil_append]
      rw [xmlUnescapeAux]
      simp [List.take, List.drop, ih hr, h6]
    · simp only [List.cons_append, List.nil_append]
      rw [xmlUnescapeAux]
      simp [List.take, List.drop, ih hr, h7]
    · simp only [List.cons_append, List.nil_append]
      rw [xmlUnescapeAux]
      simp [List.take, List.drop, ih hr, h8]
    · rw [List.singleton_append, xmlUnescapeAux_cons_ne c _ h3, ih hr]

lemma xmlUnescape_xmlEscape (s : String)
    (h : ∀ c ∈ s.data, isInCharacterRange c = true) :
    xmlUnescape (xmlEscape s) = s := by
  show String.mk (xmlUnescapeAux (s.data.flatMap escapeChar)) = s
  rw [unescape_escape s.data h]

lemma countFigures_zero_of_no_figures {entries : List DocumentEntry}
    (h : ∀ e ∈ entries, ¬e.type_ = "figure") : countFigures entries = 0 := by
  induction entries with
  | nil => rfl
  | cons e rest ih =>
    rw [countFigures, if_neg (h e (List.mem_cons_self e rest)),
      ih (fun e' he' => h e' (List.mem_cons_of_mem e he')), Nat.zero_add]

lemma genBlocks_all_para {entries : List DocumentEntry}
    (h : ∀ e ∈ entries, ¬e.type_ = "figure") :
    ∀ (k : Nat), ∀ b ∈ genBlocks entries k, ∃ t, b = Block.para t := by
  induction entries with
  | nil => intro k b hb; simp [genBlocks] at hb
  | cons e rest ih =>
    intro k b hb
    rw [genBlocks, if_neg (h e (List.mem_cons_self e rest))] at hb
    have hrest := fun e' he' => h e' (List.mem_cons_of_mem e he')
    split_ifs at hb
    · rcases List.mem_cons.mp hb with rfl | hb'
      · exact ⟨xmlEscape e.text, rfl⟩
      · exact ih hrest k b hb'
    · exact ih hrest k b hb

/-- C1 counterexample: the width emitted for every figure is the
hard-coded constant `fullWidthEmu = 5737100` EMU, which is NOT the
value of the conversion formula of the spec `9026 / 20 * 12700` — neither
under exact arithmetic (`5731510`) nor under integer (truncating)
division (`5727700`). -/
theorem claim1_width_not_formula :
    genBlocks [figureEntry ("a.svg") ("cap")] 0 =
      [Block.image 1 fullWidthEmu newHeightEmu, Block.para (xmlEscape ("cap"))] ∧
    fullWidthEmu ≠ 9026 / 20 * 12700 ∧
    (fullWidthEmu : ℚ) ≠ 9026 / 20 * 12700 := by
  refine ⟨rfl, by decide, ?_⟩
  norm_num [fullWidthEmu]

/-- C1, amended: every figure block emitted by the body loop carries
the same constant width `fullWidthEmu`, whose value is the hard-coded
`5737100` EMU (an approximation of, but not equal to,
`9026 / 20 * 12700`). -/
theorem claim1_width_constant :
    (∀ (entries : List DocumentEntry) (k i w h : Nat),
      Block.image i w h ∈ genBlocks entries k → w = fullWidthEmu) ∧
    fullWidthEmu = 5737100 :=
  ⟨fun _ _ _ _ _ hmem => (image_mem_genBlocks hmem).1, rfl⟩

/-- Witness for C1: the hypothesis of `claim1_width_constant` holds at
a concrete input. -/
theorem claim1_width_constant_witness : 5737100 = fullWidthEmu :=
  (claim1_width_constant.1 [figureEntry ("a.svg") ("cap")] 0 1 5737100 newHeightEmu
    (List.mem_cons_self _ _)).symm

/-- C2: the emitted height of every figure block equals
`floor(2000000 * W / 3000000)` where `W` is the emitted width, and the
height/width ratio is within `10⁻⁶` of `2/3`. -/
theorem claim2_height_floor :
    ∀ (entries : List DocumentEntry) (k i w h : Nat),
      Block.image i w h ∈ genBlocks entries k →
        h = (2000000 * w) / 3000000 ∧
        |(h : ℚ) / (w : ℚ) - 2 / 3| < 1 / 1000000 := by
  intro entries k i w h hmem
  obtain ⟨hw, hh⟩ := image_mem_genBlocks hmem
  subst hw
  subst hh
  rw [newHeightEmu_eq, fullWidthEmu]
  constructor
  · decide
  · rw [abs_lt]
    constructor <;> norm_num

/-- Witness for C2: the hypothesis of `claim2_height_floor` holds at a
concrete input. -/
theorem claim2_height_floor_witness :
    newHeightEmu = (2000000 * fullWidthEmu) / 3000000 :=
  (claim2_height_floor [figureEntry ("a.svg") ("cap")] 0 1 fullWidthEmu newHeightEmu
    (List.mem_cons_self _ _)).1

/-- C3: for every input list with `N` figures, the figure ordinals
cited by the image blocks of the body, the relationship IDs and targets of
`word/_rels/document.xml.rels`, the media part names, and the image
content-type override part names all run over exactly the ordinals
`1..N`, with `rId{i}` targeting `media/image{i}.svg`. -/
theorem claim3_ordinal_consistency :
    ∀ (entries : List DocumentEntry) (data : List (List Nat)),
      imageOrdinals (genBlocks entries 0) =
        List.range' 1 (countFigures entries) ∧
      (docRelsEntries (countFigures entries)).map RelEntry.id =
        (List.range' 1 (countFigures entries)).map (fun i => "rId" ++ toString i) ∧
      docRelsEntries (countFigures entries) =
        (List.range' 1 (countFigures entries)).map (fun i =>
          ⟨"rId" ++ toString i, imageRelType,
            "media/image" ++ toString i ++ ".svg"⟩) ∧
      (mediaLoop data entries 0).map ZipEntry.name =
        (List.range' 1 (countFigures entries)).map (fun i =>
          "word/media/image" ++ toString i ++ ".svg") ∧
      contentTypeOverrides (countFigures entries) =
        (List.range' 1 (countFigures entries)).map (fun i =>
          "/word/media/image" ++ toString i ++ ".svg") := by
  intro entries data
  refine ⟨?_, ?_, rfl, ?_, rfl⟩
  · simpa using imageOrdinals_genBlocks entries 0
  · rw [docRelsEntries, List.map_map]
    rfl
  · rw [mediaLoop_eq, List.map_map]
    have := range'_map_shift
      (fun i => "word/media/image" ++ toString i ++ ".svg") (countFigures entries) 0
    simpa [ZipEntry.name, Function.comp] using this

/-- C4: body blocks appear in exactly input order — for any split of
the input around an entry `e`, the body is the blocks of the prefix,
then what `e` emits (with figure ordinal = number of preceding figures
plus one; text consumes no ordinal), then the blocks of the suffix —
and the concrete scenario
`[Figure "Figure 1", Text "note", Figure "Figure 2"]` yields the five
ordered blocks image1(rId1), caption, text, image2(rId2), caption. -/
theorem claim4_order_preservation :
    (∀ (l r : List DocumentEntry) (e : DocumentEntry),
      genBlocks (l ++ e :: r) 0 =
        genBlocks l 0 ++ entryBlocks e (countFigures l + 1)
          ++ genBlocks r (countFigures (l ++ [e]))) ∧
    genBlocks [figureEntry ("a.svg") ("Figure 1"), textEntry ("note"),
        figureEntry ("b.svg") ("Figure 2")] 0 =
      [Block.image 1 fullWidthEmu newHeightEmu,
       Block.para (xmlEscape ("Figure 1")),
       Block.para (xmlEscape ("note")),
       Block.image 2 fullWidthEmu newHeightEmu,
       Block.para (xmlEscape ("Figure 2"))] := by
  constructor
  · intro l r e
    have h1 : l ++ e :: r = (l ++ [e]) ++ r := by simp
    rw [h1, genBlocks_append (l ++ [e]) r 0, genBlocks_append l [e] 0,
      genBlocks_singleton, Nat.zero_add, Nat.zero_add, List.append_assoc]
  · rfl

/-- C5 counterexample: a control character (U+0001) is "arbitrary
Unicode text", yet escaping replaces it with U+FFFD, so unescaping the
inserted content does not return the original string. -/
theorem claim5_roundtrip_counterexample :
    xmlEscape (String.mk [Char.ofNat 1]) = String.mk [fffdChar] ∧
    xmlUnescape (xmlEscape (String.mk [Char.ofNat 1])) ≠ String.mk [Char.ofNat 1] := by
  have h1 : xmlEscape (String.mk [Char.ofNat 1]) = String.mk [fffdChar] := by decide
  refine ⟨h1, ?_⟩
  rw [h1]
  have h2 : xmlUnescape (String.mk [fffdChar]) = String.mk [fffdChar] := by
    show String.mk (xmlUnescapeAux [fffdChar]) = String.mk [fffdChar]
    rw [xmlUnescapeAux_cons_ne fffdChar [] (by decide)]
    rw [xmlUnescapeAux]
  rw [h2]
  decide

/-- C5, amended: every caption/text string is inserted only after
`xmlEscape`; the escaped text is well-formed XML character data (no raw
markup characters, only XML-range characters, every `&` starting a
valid character reference); and for every string whose characters all
lie in the XML character range, unescaping the escaped text returns the
original exactly.  (Strings with XML-invalid characters, e.g. control
characters, are escaped lossily to U+FFFD — see the counterexample.) -/
theorem claim5_escape_wellformed_roundtrip :
    ∀ s : String,
      xmlTextOk (xmlEscape s).data = true ∧
      ((∀ c ∈ s.data, isInCharacterRange c = true) →
        xmlUnescape (xmlEscape s) = s) ∧
      (∀ (entries : List DocumentEntry) (k : Nat) (t : String),
        Block.para t ∈ genBlocks entries k →
          ∃ e ∈ entries, t = xmlEscape e.legend ∨ t = xmlEscape e.text) :=
  fun s =>
    ⟨xmlTextOk_escape s.data,
     fun h => xmlUnescape_xmlEscape s h,
     fun _ _ _ hmem => para_mem_genBlocks hmem⟩

/-- Witness for C5: the round-trip and insertion hypotheses of
`claim5_escape_wellformed_roundtrip` hold at concrete inputs. -/
theorem claim5_escape_wellformed_roundtrip_witness :
    xmlUnescape (xmlEscape ("a&b<c>d\"e")) = "a&b<c>d\"e" ∧
    xmlTextOk (xmlEscape ("a&b<c>d\"e")).data = true :=
  ⟨(claim5_escape_wellformed_roundtrip ("a&b<c>d\"e")).2.1 (by decide),
   (claim5_escape_wellformed_roundtrip ("a&b<c>d\"e")).1⟩

/-- C6: the empty input produces the fixed package skeleton with an
empty body, no media parts, no image relationship entries and no image
content-type overrides; an input of only text entries likewise produces
a package with zero media-related entries (figure count 0, empty media
list, body of paragraphs only). -/
theorem claim6_empty_and_text_only :
    (∀ rf, generateDocxFromEntries rf [] = Except.ok (buildPackage [] 0 [])) ∧
    genBlocks ([] : List DocumentEntry) 0 = [] ∧
    docRelsEntries 0 = [] ∧
    contentTypeOverrides 0 = [] ∧
    (∀ rf (entries : List DocumentEntry),
      (∀ e ∈ entries, e.type_ = "text") →
        generateDocxFromEntries rf entries =
          Except.ok (buildPackage (genBlocks entries 0) 0 []) ∧
        countFigures entries = 0 ∧
        (∀ b ∈ genBlocks entries 0, ∃ t, b = Block.para t)) := by
  refine ⟨fun rf => rfl, rfl, rfl, rfl, ?_⟩
  intro rf entries h
  have hnf : ∀ e ∈ entries, ¬e.type_ = "figure" := by
    intro e he hfig
    rw [h e he] at hfig
    exact absurd hfig (by decide)
  have hcount : countFigures entries = 0 := countFigures_zero_of_no_figures hnf
  have hmedia : mediaLoop [] entries 0 = [] := by
    rw [mediaLoop_eq, hcount]
    rfl
  refine ⟨?_, hcount, genBlocks_all_para hnf 0⟩
  rw [generateDocxFromEntries, readFigures_no_figures hnf]
  show Except.ok (buildPackage (genBlocks entries 0) 0 (mediaLoop [] entries 0)) = _
  rw [hmedia]

/-- Witness for C6: the text-only hypothesis of
`claim6_empty_and_text_only` holds at a concrete input. -/
theorem claim6_empty_and_text_only_witness :
    generateDocxFromEntries (fun _ => Except.error ("")) [textEntry ("note")] =
      Except.ok (buildPackage (genBlocks [textEntry ("note")] 0) 0 []) :=
  (claim6_empty_and_text_only.2.2.2.2 (fun _ => Except.error (""))
    [textEntry ("note")] (by decide)).1

/-- C7: if supplying the raw bytes of any figure fails, the build
returns the error of the first failing figure — naming the failing
path — and produces no package (the output file is created only after
the reading loop, so the destination is untouched). -/
theorem claim7_read_failure_aborts :
    ∀ rf (entries : List DocumentEntry),
      (∃ e ∈ entries, e.type_ = "figure" ∧ ∃ msg, rf e.svgPath = Except.error msg) →
      ∃ e msg, e ∈ entries ∧ e.type_ = "figure" ∧
        rf e.svgPath = Except.error msg ∧
        generateDocxFromEntries rf entries =
          Except.error ("error reading SVG file \"" ++ e.svgPath ++ "\": " ++ msg) ∧
        ∀ zip, generateDocxFromEntries rf entries ≠ Except.ok zip := by
  intro rf entries h
  obtain ⟨e, msg, hmem, hf, hrf, hrec⟩ := readFigures_error_of_exists h
  have hgen : generateDocxFromEntries rf entries =
      Except.error ("error reading SVG file \"" ++ e.svgPath ++ "\": " ++ msg) := by
    rw [generateDocxFromEntries, hrec]
  refine ⟨e, msg, hmem, hf, hrf, hgen, ?_⟩
  intro zip hcontra
  rw [hgen] at hcontra
  exact absurd hcontra (by simp)

/-- Witness for C7: the failure hypothesis of
`claim7_read_failure_aborts` holds at a concrete input. -/
theorem claim7_read_failure_aborts_witness :
    generateDocxFromEntries (fun _ => Except.error ("io failure"))
        [figureEntry ("a.svg") ("cap")] =
      Except.error ("error reading SVG file \"a.svg\": io failure") := by
  obtain ⟨e, msg, hmem, hf, hrf, hgen, hne⟩ :=
    claim7_read_failure_aborts (fun _ => Except.error ("io failure"))
      [figureEntry ("a.svg") ("cap")]
      ⟨figureEntry ("a.svg") ("cap"), List.mem_cons_self _ _, rfl,
        "io failure", rfl⟩
  have he : e = figureEntry ("a.svg") ("cap") := List.mem_singleton.mp hmem
  subst he
  have hmsg : msg = "io failure" := by
    simpa using hrf.symm
  subst hmsg
  exact hgen

/-- C8: on every successful build, the binary media parts of the
package are exactly `word/media/image{i+1}.svg` for `i = 0..N-1`, in
order, the content of the `i`-th one being the raw bytes the reader
returned for the `i`-th figure entry (in input order, counting figures
only), unmodified. -/
theorem claim8_media_bytes_in_order :
    ∀ rf (entries : List DocumentEntry) (zip : List ZipEntry),
      generateDocxFromEntries rf entries = Except.ok zip →
      ∃ data,
        readFigures rf entries = Except.ok (countFigures entries, data) ∧
        data = (figuresOf entries).map (fun e => (rf e.svgPath).toOption.getD []) ∧
        zip.filterMap binPart =
          (List.range (countFigures entries)).map (fun i =>
            ("word/media/image" ++ toString (i + 1) ++ ".svg", data.getD i [])) := by
  intro rf entries zip hgen
  rw [generateDocxFromEntries] at hgen
  cases hrec : readFigures rf entries with
  | error msg => rw [hrec] at hgen; cases hgen
  | ok p =>
    obtain ⟨n, data⟩ := p
    rw [hrec] at hgen
    obtain ⟨hn, hdata⟩ := readFigures_ok hrec
    subst hn
    have hgen2 : Except.ok (buildPackage (genBlocks entries 0) (countFigures entries)
        (mediaLoop data entries 0)) = Except.ok zip := hgen
    have hzip : zip = buildPackage (genBlocks entries 0) (countFigures entries)
        (mediaLoop data entries 0) := by
      injection hgen2 with h12
      exact h12.symm
    subst hzip
    refine ⟨data, rfl, hdata, ?_⟩
    rw [buildPackage, List.filterMap_append]
    rw [show ([ZipEntry.dir ("_rels/"), ZipEntry.dir ("word/"),
        ZipEntry.dir ("word/_rels/"), ZipEntry.dir ("word/media/"),
        ZipEntry.file ("[Content_Types].xml")
          (PartContent.xml (renderContentTypes (countFigures entries))),
        ZipEntry.file ("_rels/.rels") (PartContent.xml relsRoot),
        ZipEntry.file ("word/document.xml")
          (PartContent.xml (renderDocumentXML (genBlocks entries 0))),
        ZipEntry.file ("word/_rels/document.xml.rels")
          (PartContent.xml (renderDocRels (countFigures entries)))].filterMap binPart)
      = ([] : List (String × List Nat)) from rfl]
    rw [List.nil_append, mediaLoop_eq, List.filterMap_map, List.range_eq_range']
    rw [show (binPart ∘ fun i =>
        ZipEntry.file ("word/media/image" ++ toString (i + 1) ++ ".svg")
          (PartContent.bin (data.getD i [])))
      = some ∘ (fun i =>
          ("word/media/image" ++ toString (i + 1) ++ ".svg", data.getD i [])) from rfl]
    rw [List.filterMap_eq_map]

/-- Witness for C8: the success hypothesis of
`claim8_media_bytes_in_order` holds at a concrete input. -/
theorem claim8_media_bytes_in_order_witness :
    ∃ data,
      readFigures (fun _ => (Except.ok [7] : Except String (List Nat)))
          [figureEntry ("a.svg") ("cap")] =
        Except.ok (countFigures [figureEntry ("a.svg") ("cap")], data) ∧
      data = (figuresOf [figureEntry ("a.svg") ("cap")]).map
        (fun e => ((fun _ => (Except.ok [7] : Except String (List Nat)))
          e.svgPath).toOption.getD []) ∧
      (buildPackage (genBlocks [figureEntry ("a.svg") ("cap")] 0) 1
          (mediaLoop [[7]] [figureEntry ("a.svg") ("cap")] 0)).filterMap binPart =
        (List.range (countFigures [figureEntry ("a.svg") ("cap")])).map (fun i =>
          ("word/media/image" ++ toString (i + 1) ++ ".svg", data.getD i [])) :=
  claim8_media_bytes_in_order (fun _ => (Except.ok [7] : Except String (List Nat)))
    [figureEntry ("a.svg") ("cap")]
    (buildPackage (genBlocks [figureEntry ("a.svg") ("cap")] 0) 1
      (mediaLoop [[7]] [figureEntry ("a.svg") ("cap")] 0)) rfl

/-- C9: on every successful build, the ZIP entry list consists of
exactly the four directory entries, the four fixed file parts and the
`N` media parts, in that order, and nothing else. -/
theorem claim9_zip_entry_list :
    ∀ rf (entries : List DocumentEntry) (zip : List ZipEntry),
      generateDocxFromEntries rf entries = Except.ok zip →
      zip.map ZipEntry.name =
        ["_rels/", "word/", "word/_rels/", "word/media/",
         "[Content_Types].xml", "_rels/.rels", "word/document.xml",
         "word/_rels/document.xml.rels"]
        ++ (List.range' 1 (countFigures entries)).map (fun i =>
              "word/media/image" ++ toString i ++ ".svg") := by
  intro rf entries zip hgen
  rw [generateDocxFromEntries] at hgen
  cases hrec : readFigures rf entries with
  | error msg => rw [hrec] at hgen; cases hgen
  | ok p =>
    obtain ⟨n, data⟩ := p
    rw [hrec] at hgen
    obtain ⟨hn, _⟩ := readFigures_ok hrec
    subst hn
    have hgen2 : Except.ok (buildPackage (genBlocks entries 0) (countFigures entries)
        (mediaLoop data entries 0)) = Except.ok zip := hgen
    have hzip : zip = buildPackage (genBlocks entries 0) (countFigures entries)
        (mediaLoop data entries 0) := by
      injection hgen2 with h12
      exact h12.symm
    subst hzip
    rw [buildPackage, List.map_append, mediaLoop_eq, List.map_map]
    have h0 := range'_map_shift
      (fun i => "word/media/image" ++ toString i ++ ".svg") (countFigures entries) 0
    rw [show (ZipEntry.name ∘ fun i =>
        ZipEntry.file ("word/media/image" ++ toString (i + 1) ++ ".svg")
          (PartContent.bin (data.getD i []))) = (fun i : Nat =>
        "word/media/image" ++ toString (i + 1) ++ ".svg") from rfl, h0]
    rfl

/-- Witness for C9: the success hypothesis of `claim9_zip_entry_list`
holds at a concrete input. -/
theorem claim9_zip_entry_list_witness :
    (buildPackage (genBlocks [figureEntry ("a.svg") ("cap")] 0) 1
        (mediaLoop [[7]] [figureEntry ("a.svg") ("cap")] 0)).map ZipEntry.name =
      ["_rels/", "word/", "word/_rels/", "word/media/",
       "[Content_Types].xml", "_rels/.rels", "word/document.xml",
       "word/_rels/document.xml.rels"]
      ++ (List.range' 1 (countFigures [figureEntry ("a.svg") ("cap")])).map (fun i =>
            "word/media/image" ++ toString i ++ ".svg") :=
  claim9_zip_entry_list (fun _ => (Except.ok [7] : Except String (List Nat)))
    [figureEntry ("a.svg") ("cap")]
    (buildPackage (genBlocks [figureEntry ("a.svg") ("cap")] 0) 1
      (mediaLoop [[7]] [figureEntry ("a.svg") ("cap")] 0)) rfl

/-- C10: an entry whose `Type` is neither `"figure"` nor `"text"` is
silently skipped: the produced package is identical to the one produced
with that entry removed, wherever it sits in the input. -/
theorem claim10_unknown_type_skipped :
    ∀ rf (l r : List DocumentEntry) (e : DocumentEntry),
      ¬e.type_ = "figure" → ¬e.type_ = "text" →
      generateDocxFromEntries rf (l ++ e :: r) =
        generateDocxFromEntries rf (l ++ r) := by
  intro rf l r e h1 h2
  rw [generateDocxFromEntries, generateDocxFromEntries, readFigures_skip h1 l r]
  cases hrec : readFigures rf (l ++ r) with
  | error msg => rfl
  | ok p =>
    obtain ⟨n, data⟩ := p
    show Except.ok (buildPackage (genBlocks (l ++ e :: r) 0) n
          (mediaLoop data (l ++ e :: r) 0))
        = Except.ok (buildPackage (genBlocks (l ++ r) 0) n
          (mediaLoop data (l ++ r) 0))
    rw [genBlocks_skip h1 h2 l r 0, mediaLoop_skip h1 data l r 0]

/-- Witness for C10: the hypotheses of `claim10_unknown_type_skipped`
hold at a concrete input. -/
theorem claim10_unknown_type_skipped_witness :
    generateDocxFromEntries (fun _ => (Except.ok [] : Except String (List Nat)))
        ([] ++ (⟨"comment", "", "", ""⟩ : DocumentEntry) :: [textEntry ("x")]) =
      generateDocxFromEntries (fun _ => (Except.ok [] : Except String (List Nat)))
        ([] ++ [textEntry ("x")]) :=
  claim10_unknown_type_skipped (fun _ => (Except.ok [] : Except String (List Nat)))
    [] [textEntry ("x")] ⟨"comment", "", "", ""⟩ (by decide) (by decide)

end TestDocx
